import Mathlib

/-!
FSecure::DuplexConnection: a verification development

Embedding of `Src/Common/FSecure/Sockets/DuplexConnection.cpp`.

The connection object is a record of the three data members the worker loops
share (`m_IsSending`, `m_IsReceiving`, `m_Messages`).  The two worker lambdas, the
destructor and the callers of the public interface are the threads of a labelled
transition system: every event is one atomic action of one thread, a schedule is
a list of events, and `exec` runs a schedule.

Granularity.  `Stop()` takes no lock (it is called lock-free from both `catch`
handlers), so every read of an active flag by a worker is an atomic action of
its own and any event may be scheduled between two of them.  `m_Messages` is only
touched with `m_MessagesMutex` held; `Send` and the locked block of the destructor
are therefore single events that are enabled only while the sending thread is
outside its critical section.  The socket (`ClientSocket`) and the callback are
external: the result of each socket call is supplied by the event, the calls
themselves are recorded in logs.
-/

namespace FSecure

/-- Bytes of one message (`FSecure::ByteVector`, a vector of `uint8_t`). -/
abbrev ByteVector := List (Fin 256)

/-- Result of a call into `ClientSocket`: it returns a value or throws
`FSecure::SocketsException`. -/
inductive SocketResult (α : Type) where
  | ok (value : α)
  | throwsSocketsException
deriving DecidableEq, Repr

/-- The data members of `DuplexConnection` that the threads share.  `m_Messages` is the
`std::queue`: its front is the head of the list, `emplace` appends at the tail. -/
structure DuplexConnection where
  m_IsSending : Bool
  m_IsReceiving : Bool
  m_Messages : List ByteVector
deriving DecidableEq, Repr

namespace DuplexConnection

/-- Constructor (lines 6-8): both flags false, empty queue. -/
def ctor : DuplexConnection :=
  { m_IsSending := false, m_IsReceiving := false, m_Messages := [] }

/-- Method `DuplexConnection::Stop` (lines 95-99). -/
def Stop (c : DuplexConnection) : DuplexConnection :=
  { c with m_IsSending := false, m_IsReceiving := false }

/-- Method `DuplexConnection::IsSending` (lines 102-105). -/
def IsSending (c : DuplexConnection) : Bool :=
  c.m_IsSending

/-- Method `DuplexConnection::Send` (lines 108-113), the effect on the object: `emplace` at the tail.
The `notify_one` of line 112 acts on the waiting thread and is part of the `Send` event. -/
def Send (message : ByteVector) (c : DuplexConnection) : DuplexConnection :=
  { c with m_Messages := c.m_Messages ++ [message] }

end DuplexConnection

/-- Control points inside `DuplexConnection::GetMessage` (lines 116-142). -/
inductive GetMessagePc where
  /-- line 125: called with the mutex held, about to test `m_Messages.empty()` -/
  | entry
  /-- line 133: blocked in `m_NewMessage.wait(lock)`, mutex released -/
  | wait
  /-- line 133-134: woken (notification or spurious wake); re-acquires the mutex and
  reads `m_IsSending` -/
  | woken
  /-- line 136: mutex held, about to test `m_Messages.empty()` -/
  | recheck
deriving DecidableEq, Repr

/-- What one action of `GetMessage` leads to: the function returns `message`, or control
moves to another point of the function. -/
inductive GetMessageResult where
  | returned (message : ByteVector) (c : DuplexConnection)
  | goto (pc : GetMessagePc) (c : DuplexConnection)
deriving DecidableEq, Repr

/-- The lambda `popMessage` (lines 118-123) followed by `return`, and the `wait` that is
reached when there is nothing to pop. -/
def popMessageOrWait (c : DuplexConnection) : GetMessageResult :=
  match c.m_Messages with
  | ret :: rest => .returned ret { c with m_Messages := rest }
  | [] => .goto .wait c

/-- Method `DuplexConnection::GetMessage` (lines 116-142), one atomic action from each control
point. -/
def GetMessage (pc : GetMessagePc) (c : DuplexConnection) : GetMessageResult :=
  match pc with
  | .entry => popMessageOrWait c                       -- lines 125-128, else 133
  | .wait => .goto .wait c                             -- line 133: blocked
  | .woken =>                                          -- line 134
    if !c.m_IsSending then .returned [] c              -- line 135: stop requested
    else .goto .recheck c
  | .recheck => popMessageOrWait c                     -- lines 136-139

/-- Control points of the sending thread (the lambda of `StartSending`, lines 33-55). -/
inductive SendPc where
  /-- before `StartSending` is called -/
  | notStarted
  /-- lines 41-42: locks `m_MessagesMutex` and reads `m_IsSending` -/
  | loopTop
  /-- line 44: inside `GetMessage` -/
  | getMessage (pc : GetMessagePc)
  /-- line 48: mutex released, about to call `m_ClientSocket.Send(message)` -/
  | socketSend (message : ByteVector)
  /-- the thread function has returned -/
  | exited
deriving DecidableEq, Repr

/-- Control points of the receiving thread (the lambda of `StartReceiving`, lines 68-92). -/
inductive RecvPc where
  /-- before `StartReceiving` is called -/
  | notStarted
  /-- line 74: reads `m_IsReceiving` and, when it is true, calls `HasReceivedData()` -/
  | probe
  /-- line 79: reads `m_IsReceiving` -/
  | check
  /-- line 82: calls `Receive()` -/
  | receive
  /-- lines 83-85: `Receive()` returned `message`; reads `m_IsReceiving`, tests
  `message.empty()`, invokes the callback -/
  | afterReceive (message : ByteVector)
  /-- the thread function has returned -/
  | exited
deriving DecidableEq, Repr

/-- Control points of the destructor (lines 16-27). -/
inductive DtorPc where
  | notCalled
  /-- lines 18-21 done: `Stop()` was called under the mutex -/
  | stopped
  /-- line 22 done: `m_NewMessage.notify_all()` -/
  | notified
  /-- lines 23-24 done: the sending thread is joined (or was not joinable) -/
  | joinedSending
  /-- lines 25-26 done: the receiving thread is joined (or was not joinable) -/
  | destroyed
deriving DecidableEq, Repr

/-- Calls made by the receiving thread, in program order. -/
inductive RecvAction where
  | HasReceivedData (result : SocketResult Bool)
  | Receive (result : SocketResult ByteVector)
  | callback (message : ByteVector)
deriving DecidableEq, Repr

/-- The whole system state: the shared object, the control point of each thread, and the logs of
the external calls. -/
structure SysState where
  conn : DuplexConnection
  sendPc : SendPc
  recvPc : RecvPc
  dtorPc : DtorPc
  /-- arguments of the calls `m_ClientSocket.Send(message)` of line 48, oldest first
  (every call, also one that throws) -/
  socketSends : List ByteVector
  /-- calls of the receiving thread, oldest first -/
  recvLog : List RecvAction
deriving DecidableEq, Repr

/-- State right after construction. -/
def SysState.ctor : SysState :=
  { conn := DuplexConnection.ctor, sendPc := .notStarted, recvPc := .notStarted,
    dtorPc := .notCalled, socketSends := [], recvLog := [] }

/-- The sending thread owns `m_MessagesMutex` at these control points. -/
def SendPc.holdsMutex : SendPc → Bool
  | .getMessage .entry => true
  | .getMessage .recheck => true
  | _ => false

/-- Effect of `m_NewMessage.notify_one()` / `notify_all()` / a spurious wake: the only
possible waiter, the sending thread blocked at line 133, becomes runnable. -/
def wake (s : SysState) : SysState :=
  match s.sendPc with
  | .getMessage .wait => { s with sendPc := .getMessage .woken }
  | _ => s

/-- Result of running a piece of a `try` block: it completes, or `SocketsException` is thrown
in the given state. -/
inductive Outcome where
  | normal (s : SysState)
  | SocketsException (s : SysState)
deriving DecidableEq, Repr

/-- One atomic action of the `try` block of the sending thread (lines 37-49).  `write` is
what `m_ClientSocket.Send` does if this action calls it. -/
def senderBody (write : SocketResult Unit) (s : SysState) : Outcome :=
  match s.sendPc with
  | .loopTop =>                                        -- lines 41-43
    if !s.conn.m_IsSending then .normal { s with sendPc := .exited }
    else .normal { s with sendPc := .getMessage .entry }
  | .getMessage pc =>                                  -- lines 44-46
    match GetMessage pc s.conn with
    | .returned message c =>
      if message.isEmpty then .normal { s with conn := c, sendPc := .exited }
      else .normal { s with conn := c, sendPc := .socketSend message }
    | .goto pc2 c => .normal { s with conn := c, sendPc := .getMessage pc2 }
  | .socketSend message =>                             -- line 48
    match write with
    | .ok _ => .normal { s with socketSends := s.socketSends ++ [message], sendPc := .loopTop }
    | .throwsSocketsException =>
      .SocketsException { s with socketSends := s.socketSends ++ [message] }
  | .notStarted => .normal s
  | .exited => .normal s

/-- One atomic action of the sending thread: the `try` block with its handler
`catch (FSecure::SocketsException&) { Stop(); }` (lines 35-54). -/
def senderStep (write : SocketResult Unit) (s : SysState) : SysState :=
  match senderBody write s with
  | .normal s2 => s2
  | .SocketsException s2 => { s2 with conn := s2.conn.Stop, sendPc := .exited }

/-- One atomic action of the `try` block of the receiving thread (lines 72-86).  `hasData`
and `read` are what `HasReceivedData()` and `Receive()` do if this action calls them. -/
def receiverBody (hasData : SocketResult Bool) (read : SocketResult ByteVector)
    (s : SysState) : Outcome :=
  match s.recvPc with
  | .probe =>                                          -- lines 74-78
    if s.conn.m_IsReceiving then
      match hasData with
      | .ok true =>
        .normal { s with recvLog := s.recvLog ++ [.HasReceivedData hasData], recvPc := .check }
      | .ok false =>                                   -- sleep_for(10ms); continue
        .normal { s with recvLog := s.recvLog ++ [.HasReceivedData hasData], recvPc := .probe }
      | .throwsSocketsException =>
        .SocketsException { s with recvLog := s.recvLog ++ [.HasReceivedData hasData] }
    else .normal { s with recvPc := .check }
  | .check =>                                          -- lines 79-80
    if !s.conn.m_IsReceiving then .normal { s with recvPc := .exited }
    else .normal { s with recvPc := .receive }
  | .receive =>                                        -- line 82
    match read with
    | .ok message =>
      .normal { s with recvLog := s.recvLog ++ [.Receive read], recvPc := .afterReceive message }
    | .throwsSocketsException =>
      .SocketsException { s with recvLog := s.recvLog ++ [.Receive read] }
  | .afterReceive message =>                           -- lines 83-85
    if !s.conn.m_IsReceiving || message.isEmpty then .normal { s with recvPc := .exited }
    else .normal { s with recvLog := s.recvLog ++ [.callback message], recvPc := .probe }
  | .notStarted => .normal s
  | .exited => .normal s

/-- One atomic action of the receiving thread: the `try` block with its handler
`catch (FSecure::SocketsException&) { Stop(); }` (lines 70-91). -/
def receiverStep (hasData : SocketResult Bool) (read : SocketResult ByteVector)
    (s : SysState) : SysState :=
  match receiverBody hasData read s with
  | .normal s2 => s2
  | .SocketsException s2 => { s2 with conn := s2.conn.Stop, recvPc := .exited }

/-- A thread can be joined without blocking: it was never started (`joinable()` is false) or
its function has returned. -/
def SendPc.joinDone : SendPc → Bool
  | .notStarted => true
  | .exited => true
  | _ => false

/-- See `SendPc.joinDone`. -/
def RecvPc.joinDone : RecvPc → Bool
  | .notStarted => true
  | .exited => true
  | _ => false

/-- One action of `~DuplexConnection` (lines 16-27).  The locked block waits for the mutex, a
`join` waits for its thread; a waiting action leaves the state as it is. -/
def destructorStep (s : SysState) : SysState :=
  match s.dtorPc with
  | .notCalled =>                                      -- lines 18-21
    if s.sendPc.holdsMutex then s
    else { s with conn := s.conn.Stop, dtorPc := .stopped }
  | .stopped => { wake s with dtorPc := .notified }    -- line 22
  | .notified =>                                       -- lines 23-24
    if s.sendPc.joinDone then { s with dtorPc := .joinedSending } else s
  | .joinedSending =>                                  -- lines 25-26
    if s.recvPc.joinDone then { s with dtorPc := .destroyed } else s
  | .destroyed => s

/-- The atomic actions of the system. -/
inductive Event where
  /-- a caller runs `StartSending()` -/
  | StartSending
  /-- a caller runs `StartReceiving(callback)` -/
  | StartReceiving
  /-- a caller runs `Send(message)` -/
  | Send (message : ByteVector)
  /-- a caller runs `Stop()` -/
  | Stop
  /-- the condition variable wakes its waiter spuriously -/
  | spuriousWake
  /-- the sending thread performs its next action -/
  | sender (write : SocketResult Unit)
  /-- the receiving thread performs its next action -/
  | receiver (hasData : SocketResult Bool) (read : SocketResult ByteVector)
  /-- the destructor performs its next action -/
  | destructor
deriving DecidableEq, Repr

/-- Whether an event can be taken in a state.  A thread is started once, before destruction
begins (assigning a second `std::thread` to a joinable one terminates the process); `Send`
needs the mutex; a thread that is blocked or has returned is not scheduled. -/
def enabled (e : Event) (s : SysState) : Bool :=
  match e with
  | .StartSending => s.sendPc == .notStarted && s.dtorPc == .notCalled
  | .StartReceiving => s.recvPc == .notStarted && s.dtorPc == .notCalled
  | .Send _ => !s.sendPc.holdsMutex
  | .Stop => true
  | .spuriousWake => s.sendPc == .getMessage .wait
  | .sender _ =>
    s.sendPc != .notStarted && s.sendPc != .getMessage .wait && s.sendPc != .exited
  | .receiver _ _ => s.recvPc != .notStarted && s.recvPc != .exited
  | .destructor =>
    match s.dtorPc with
    | .notCalled => !s.sendPc.holdsMutex
    | .stopped => true
    | .notified => s.sendPc.joinDone
    | .joinedSending => s.recvPc.joinDone
    | .destroyed => false

/-- Transition function; an event that is not enabled leaves the state as it is. -/
def step (e : Event) (s : SysState) : SysState :=
  if enabled e s then
    match e with
    | .StartSending =>                                 -- lines 32-33
      { s with conn := { s.conn with m_IsSending := true }, sendPc := .loopTop }
    | .StartReceiving =>                               -- lines 67-68
      { s with conn := { s.conn with m_IsReceiving := true }, recvPc := .probe }
    | .Send message => wake { s with conn := s.conn.Send message }   -- lines 110-112
    | .Stop => { s with conn := s.conn.Stop }
    | .spuriousWake => wake s
    | .sender write => senderStep write s
    | .receiver hasData read => receiverStep hasData read s
    | .destructor => destructorStep s
  else s

/-- Runs a schedule, first event first. -/
def exec : List Event → SysState → SysState
  | [], s => s
  | e :: es, s => exec es (step e s)

/-- Every event of the schedule is enabled in the state in which it is taken. -/
def Valid : List Event → SysState → Bool
  | [], _ => true
  | e :: es, s => enabled e s && Valid es (step e s)

/-- The event is a call of `Send` with a zero-length message. -/
def Event.sendsEmpty : Event → Bool
  | .Send message => message.isEmpty
  | _ => false

/-- Messages passed to `Send` in a schedule, in order. -/
def sentMessages : List Event → List ByteVector
  | [] => []
  | .Send message :: es => message :: sentMessages es
  | _ :: es => sentMessages es

/-- Invariant behind C6: no zero-length message is queued, and a sending thread that has
returned has seen or caused `m_IsSending = false`. -/
def NoSilentExit (s : SysState) : Prop :=
  (∀ m ∈ s.conn.m_Messages, m ≠ []) ∧ (s.sendPc = .exited → s.conn.m_IsSending = false)

/-- The message the sending thread can still write once `m_IsSending` is false: the one it
has dequeued, or the head of the queue when it is past its check of the flag (line 42 or
line 134) and holds the mutex. -/
def pendingWrite (s : SysState) : Option ByteVector :=
  match s.sendPc with
  | .socketSend message => some message
  | .getMessage .entry => (s.conn.m_Messages.head?).filter (fun m => !m.isEmpty)
  | .getMessage .recheck => (s.conn.m_Messages.head?).filter (fun m => !m.isEmpty)
  | _ => none

/-- Invariant behind C4, for every run: once the destructor has run its locked `Stop()` both
flags are false and the sending thread is outside its critical section; once it has
notified, the sending thread is not blocked in `wait`. -/
def TeardownInv (s : SysState) : Prop :=
  (s.dtorPc ≠ .notCalled →
    s.conn.m_IsSending = false ∧ s.conn.m_IsReceiving = false ∧ s.sendPc.holdsMutex = false) ∧
  (s.dtorPc ≠ .notCalled → s.dtorPc ≠ .stopped → s.sendPc ≠ .getMessage .wait)

/-- Events of a run in which `m_IsSending` stays true, no socket call fails and no zero-length
message is passed to `Send`. -/
def Event.keepsSending : Event → Bool
  | .StartSending => true
  | .StartReceiving => true
  | .spuriousWake => true
  | .Send message => !message.isEmpty
  | .sender (.ok _) => true
  | .receiver (.ok _) (.ok _) => true
  | _ => false

/-- The message the sending thread has dequeued and not yet written. -/
def inflight : SendPc → List ByteVector
  | .socketSend message => [message]
  | _ => []

/-- Number of actions the sending thread needs, with `m_IsSending` true and writes that
succeed, to write everything that is queued and block in `wait`. -/
def senderFuel (s : SysState) : Nat :=
  match s.sendPc with
  | .loopTop => 3 * s.conn.m_Messages.length + 2
  | .getMessage .entry => 3 * s.conn.m_Messages.length + 1
  | .getMessage .recheck => 3 * s.conn.m_Messages.length + 1
  | .getMessage .woken => 3 * s.conn.m_Messages.length + 2
  | .getMessage .wait => 0
  | .socketSend _ => 3 * s.conn.m_Messages.length + 3
  | .notStarted => 0
  | .exited => 0

/-- Invariant behind C1: written, in-flight and queued messages make up, in this order, the
messages passed to `Send`; no queued message is empty; the sending thread has not returned;
it is blocked only while the queue is empty. -/
def FifoInv (msgs : List ByteVector) (s : SysState) : Prop :=
  (∀ m ∈ s.conn.m_Messages, m ≠ []) ∧
  s.socketSends ++ inflight s.sendPc ++ s.conn.m_Messages = msgs ∧
  s.sendPc ≠ .exited ∧
  (s.sendPc ≠ .notStarted → s.conn.m_IsSending = true) ∧
  (s.sendPc = .getMessage .wait → s.conn.m_Messages = [])

/-- The receiving thread has seen or will see `m_IsReceiving = false` before any further
socket call: the flag is false and the thread is at line 74, at line 79, or has returned. -/
def RecvStopped (s : SysState) : Prop :=
  s.conn.m_IsReceiving = false ∧
  (s.recvPc = .probe ∨ s.recvPc = .check ∨ s.recvPc = .exited)

/-- Running the empty schedule. -/
@[simp]
theorem exec_nil (s : SysState) : exec [] s = s := rfl

/-- Running a schedule event by event. -/
@[simp]
theorem exec_cons (e : Event) (es : List Event) (s : SysState) :
    exec (e :: es) s = exec es (step e s) := rfl

/-- Running two schedules one after the other. -/
theorem exec_append (es fs : List Event) (s : SysState) :
    exec (es ++ fs) s = exec fs (exec es s) := by
  induction es generalizing s with
  | nil => rfl
  | cons e es ih => simp [ih]

/-- A property kept by every allowed event holds after every schedule of allowed events. -/
theorem exec_invariant (P : SysState → Prop) (allowed : Event → Prop)
    (hstep : ∀ e s, allowed e → P s → P (step e s)) :
    ∀ (sched : List Event) (s : SysState), (∀ e ∈ sched, allowed e) → P s → P (exec sched s) := by
  intro sched
  induction sched with
  | nil => intro s _ h; exact h
  | cons e es ih =>
    intro s hall h
    exact ih _ (fun x hx => hall x (List.mem_cons_of_mem _ hx))
      (hstep e s (hall e (List.mem_cons_self _ _)) h)

/-- What an action of the receiving thread can change for the sending side: nothing but the
flags, and those only by `Stop()`. -/
theorem receiverStep_frame (a : SocketResult Bool) (b : SocketResult ByteVector) (s : SysState) :
    (receiverStep a b s).sendPc = s.sendPc ∧ (receiverStep a b s).dtorPc = s.dtorPc ∧
    (receiverStep a b s).socketSends = s.socketSends ∧
    ((receiverStep a b s).conn = s.conn ∨ (receiverStep a b s).conn = s.conn.Stop) := by
  obtain ⟨⟨fs, fr, q⟩, sp, rp, dp, ss, rl⟩ := s
  rcases a with (_ | _) | _ <;> cases b <;>
    rcases rp with _ | _ | _ | _ | (_ | ⟨_, _⟩) | _ <;> cases fr <;>
    simp [receiverStep, receiverBody, DuplexConnection.Stop]

/-- Frame of the `receiver` event, see `receiverStep_frame`. -/
theorem step_receiver_frame (a : SocketResult Bool) (b : SocketResult ByteVector) (s : SysState) :
    (step (.receiver a b) s).sendPc = s.sendPc ∧ (step (.receiver a b) s).dtorPc = s.dtorPc ∧
    (step (.receiver a b) s).socketSends = s.socketSends ∧
    ((step (.receiver a b) s).conn = s.conn ∨ (step (.receiver a b) s).conn = s.conn.Stop) := by
  unfold step
  split
  · exact receiverStep_frame a b s
  · simp

/-- Frame of the `StartReceiving` event: only `m_IsReceiving` and the receiving thread change. -/
theorem step_StartReceiving_frame (s : SysState) :
    (step .StartReceiving s).sendPc = s.sendPc ∧ (step .StartReceiving s).dtorPc = s.dtorPc ∧
    (step .StartReceiving s).socketSends = s.socketSends ∧
    (step .StartReceiving s).conn.m_IsSending = s.conn.m_IsSending ∧
    (step .StartReceiving s).conn.m_Messages = s.conn.m_Messages := by
  unfold step
  split <;> simp

/-- What an action of the destructor can change: the flags by `Stop()`, its own control
point, and a waiting sending thread is woken. -/
theorem destructorStep_frame (s : SysState) :
    (destructorStep s).socketSends = s.socketSends ∧
    (destructorStep s).recvPc = s.recvPc ∧ (destructorStep s).recvLog = s.recvLog ∧
    ((destructorStep s).conn = s.conn ∨ (destructorStep s).conn = s.conn.Stop) ∧
    ((destructorStep s).sendPc = s.sendPc ∨
      (s.sendPc = .getMessage .wait ∧ (destructorStep s).sendPc = .getMessage .woken)) := by
  obtain ⟨c, sp, rp, dp, ss, rl⟩ := s
  rcases sp with _ | _ | (_ | _ | _ | _) | _ | _ <;> cases dp <;>
    simp [destructorStep, wake, SendPc.holdsMutex, SendPc.joinDone] <;>
    cases rp <;> simp [RecvPc.joinDone]

/-- Frame of the `destructor` event, see `destructorStep_frame`. -/
theorem step_destructor_frame (s : SysState) :
    (step .destructor s).socketSends = s.socketSends ∧
    (step .destructor s).recvPc = s.recvPc ∧ (step .destructor s).recvLog = s.recvLog ∧
    ((step .destructor s).conn = s.conn ∨ (step .destructor s).conn = s.conn.Stop) ∧
    ((step .destructor s).sendPc = s.sendPc ∨
      (s.sendPc = .getMessage .wait ∧ (step .destructor s).sendPc = .getMessage .woken)) := by
  unfold step
  split
  · exact destructorStep_frame s
  · simp

/-- Every event that does not pass a zero-length message to `Send` keeps `NoSilentExit`. -/
theorem noSilentExit_step (e : Event) (s : SysState) (he : e.sendsEmpty = false)
    (h : NoSilentExit s) : NoSilentExit (step e s) := by
  cases e with
  | receiver a b =>
    obtain ⟨h1, -, -, h4⟩ := step_receiver_frame a b s
    unfold NoSilentExit
    rw [h1]
    rcases h4 with h4 | h4 <;> rw [h4]
    · exact h
    · exact ⟨h.1, fun _ => rfl⟩
  | StartReceiving =>
    obtain ⟨h1, -, -, h4, h5⟩ := step_StartReceiving_frame s
    unfold NoSilentExit
    rw [h1, h4, h5]
    exact h
  | destructor =>
    obtain ⟨-, -, -, h4, h5⟩ := step_destructor_frame s
    unfold NoSilentExit
    refine ⟨?_, ?_⟩
    · rcases h4 with h4 | h4 <;> rw [h4] <;> exact h.1
    · intro hx
      rcases h5 with h5 | ⟨-, h5⟩
      · rcases h4 with h4 | h4 <;> rw [h4]
        · exact h.2 (h5 ▸ hx)
        · rfl
      · rw [h5] at hx; cases hx
  | StartSending =>
    obtain ⟨⟨fs, fr, q⟩, sp, rp, dp, ss, rl⟩ := s
    obtain ⟨hq, hx⟩ := h
    cases sp <;> cases dp <;> simp_all [NoSilentExit, step, enabled]
  | Send m =>
    have hm : m ≠ [] := by simpa [Event.sendsEmpty] using he
    obtain ⟨⟨fs, fr, q⟩, sp, rp, dp, ss, rl⟩ := s
    obtain ⟨hq, hx⟩ := h
    simp only at hq hx
    rcases sp with _ | _ | (_ | _ | _ | _) | _ | _ <;>
      simp_all [NoSilentExit, step, enabled, wake, DuplexConnection.Send, SendPc.holdsMutex] <;>
      (intro x hx2; rcases hx2 with h1 | h1 <;> first | exact hq x h1 | (subst h1; exact hm))
  | Stop =>
    obtain ⟨hq, -⟩ := h
    exact ⟨hq, fun _ => rfl⟩
  | spuriousWake =>
    obtain ⟨⟨fs, fr, q⟩, sp, rp, dp, ss, rl⟩ := s
    rcases sp with _ | _ | (_ | _ | _ | _) | _ | _ <;>
      simp_all [NoSilentExit, step, enabled, wake]
  | sender w =>
    obtain ⟨⟨fs, fr, q⟩, sp, rp, dp, ss, rl⟩ := s
    obtain ⟨hq, hx⟩ := h
    simp only at hq hx
    rcases sp with _ | _ | (_ | _ | _ | _) | _ | _ <;> cases w <;> cases fs <;>
      rcases q with _ | ⟨m, q⟩ <;>
      simp_all [NoSilentExit, step, enabled, senderStep, senderBody, GetMessage, popMessageOrWait,
        DuplexConnection.Stop]

/-- Once the sending thread has returned it stays so, nothing more is written, and the
queue only grows at its tail. -/
theorem exited_step (e : Event) (s : SysState) (h : s.sendPc = .exited) :
    (step e s).sendPc = .exited ∧ (step e s).socketSends = s.socketSends ∧
    ∃ more, (step e s).conn.m_Messages = s.conn.m_Messages ++ more := by
  cases e with
  | receiver a b =>
    obtain ⟨h1, -, h3, h4⟩ := step_receiver_frame a b s
    refine ⟨h1.trans h, h3, [], ?_⟩
    rcases h4 with h4 | h4 <;> rw [h4] <;> simp [DuplexConnection.Stop]
  | StartReceiving =>
    obtain ⟨h1, -, h3, -, h5⟩ := step_StartReceiving_frame s
    exact ⟨h1.trans h, h3, [], by simp [h5]⟩
  | destructor =>
    obtain ⟨h3, -, -, h4, h5⟩ := step_destructor_frame s
    refine ⟨?_, h3, [], ?_⟩
    · rcases h5 with h5 | ⟨h5, -⟩
      · exact h5.trans h
      · rw [h] at h5; cases h5
    · rcases h4 with h4 | h4 <;> rw [h4] <;> simp [DuplexConnection.Stop]
  | StartSending =>
    obtain ⟨c, sp, rp, dp, ss, rl⟩ := s
    subst h
    simp [step, enabled]
  | Send m =>
    obtain ⟨c, sp, rp, dp, ss, rl⟩ := s
    subst h
    simp [step, enabled, wake, DuplexConnection.Send, SendPc.holdsMutex]
  | Stop =>
    obtain ⟨c, sp, rp, dp, ss, rl⟩ := s
    subst h
    simp [step, enabled, DuplexConnection.Stop]
  | spuriousWake =>
    obtain ⟨c, sp, rp, dp, ss, rl⟩ := s
    subst h
    simp [step, enabled]
  | sender w =>
    obtain ⟨c, sp, rp, dp, ss, rl⟩ := s
    subst h
    simp [step, enabled]

/-- Schedule version of `exited_step`. -/
theorem exited_exec (t : List Event) (s : SysState) (h : s.sendPc = .exited) :
    (exec t s).sendPc = .exited ∧ (exec t s).socketSends = s.socketSends ∧
    ∃ more, (exec t s).conn.m_Messages = s.conn.m_Messages ++ more := by
  induction t generalizing s with
  | nil => exact ⟨h, rfl, [], by simp⟩
  | cons e es ih =>
    obtain ⟨h1, h2, m1, h3⟩ := exited_step e s h
    obtain ⟨k1, k2, m2, k3⟩ := ih (step e s) h1
    refine ⟨k1, k2.trans h2, m1 ++ m2, ?_⟩
    simp only [exec_cons]
    rw [k3, h3, List.append_assoc]

/-- One event in a state with `m_IsSending = false`: the flag stays false, and either nothing
is written and the pending write is kept or dropped, or exactly the pending write is
written. -/
theorem stopped_step (e : Event) (s : SysState) (he : e ≠ .StartSending)
    (h : s.conn.m_IsSending = false) :
    (step e s).conn.m_IsSending = false ∧
    (((step e s).socketSends = s.socketSends ∧
        (pendingWrite (step e s) = pendingWrite s ∨ pendingWrite (step e s) = none)) ∨
      ((step e s).socketSends = s.socketSends ++ (pendingWrite s).toList ∧
        pendingWrite (step e s) = none)) := by
  cases e with
  | receiver a b =>
    obtain ⟨h1, -, h3, h4⟩ := step_receiver_frame a b s
    refine ⟨?_, Or.inl ⟨h3, Or.inl ?_⟩⟩
    · rcases h4 with h4 | h4 <;> rw [h4]
      · exact h
      · rfl
    · unfold pendingWrite
      rw [h1]
      rcases h4 with h4 | h4 <;> simp [h4, DuplexConnection.Stop]
  | StartReceiving =>
    obtain ⟨h1, -, h3, h4, h5⟩ := step_StartReceiving_frame s
    refine ⟨h4.trans h, Or.inl ⟨h3, Or.inl ?_⟩⟩
    unfold pendingWrite
    rw [h1, h5]
  | destructor =>
    obtain ⟨h3, -, -, h4, h5⟩ := step_destructor_frame s
    refine ⟨?_, Or.inl ⟨h3, Or.inl ?_⟩⟩
    · rcases h4 with h4 | h4 <;> rw [h4]
      · exact h
      · rfl
    · have hq : (step .destructor s).conn.m_Messages = s.conn.m_Messages := by
        rcases h4 with h4 | h4 <;> simp [h4, DuplexConnection.Stop]
      unfold pendingWrite
      rcases h5 with h5 | ⟨h5, h6⟩
      · rw [h5, hq]
      · rw [h5, h6]
  | StartSending => exact absurd rfl he
  | Send m =>
    obtain ⟨⟨fs, fr, q⟩, sp, rp, dp, ss, rl⟩ := s
    simp only at h
    subst h
    rcases sp with _ | _ | (_ | _ | _ | _) | _ | _ <;>
      simp [step, enabled, wake, DuplexConnection.Send, SendPc.holdsMutex, pendingWrite]
  | Stop =>
    obtain ⟨⟨fs, fr, q⟩, sp, rp, dp, ss, rl⟩ := s
    simp [step, enabled, DuplexConnection.Stop, pendingWrite]
  | spuriousWake =>
    obtain ⟨⟨fs, fr, q⟩, sp, rp, dp, ss, rl⟩ := s
    simp only at h
    subst h
    rcases sp with _ | _ | (_ | _ | _ | _) | _ | _ <;>
      simp [step, enabled, wake, pendingWrite]
  | sender w =>
    obtain ⟨⟨fs, fr, q⟩, sp, rp, dp, ss, rl⟩ := s
    simp only at h
    subst h
    rcases sp with _ | _ | (_ | _ | _ | _) | _ | _ <;> cases w <;>
      rcases q with _ | ⟨(_ | ⟨b, m⟩), q⟩ <;>
      simp [step, enabled, senderStep, senderBody, GetMessage, popMessageOrWait,
        DuplexConnection.Stop, pendingWrite, Option.filter]

/-- Schedule version of `stopped_step`: once `m_IsSending` is false and `StartSending` is not
called, at most the pending write is written. -/
theorem stopped_exec (t : List Event) (s : SysState) (ht : ∀ e ∈ t, e ≠ .StartSending)
    (h : s.conn.m_IsSending = false) :
    (exec t s).conn.m_IsSending = false ∧
    (((exec t s).socketSends = s.socketSends ∧
        (pendingWrite (exec t s) = pendingWrite s ∨ pendingWrite (exec t s) = none)) ∨
      ((exec t s).socketSends = s.socketSends ++ (pendingWrite s).toList ∧
        pendingWrite (exec t s) = none)) := by
  induction t generalizing s with
  | nil => exact ⟨h, Or.inl ⟨rfl, Or.inl rfl⟩⟩
  | cons e es ih =>
    obtain ⟨h1, h2⟩ := stopped_step e s (ht e (List.mem_cons_self _ _)) h
    obtain ⟨k1, k2⟩ := ih (step e s) (fun x hx => ht x (List.mem_cons_of_mem _ hx)) h1
    refine ⟨k1, ?_⟩
    simp only [exec_cons]
    rcases h2 with ⟨a1, a2 | a2⟩ | ⟨a1, a2⟩
    · rw [a1, a2] at k2; exact k2
    · rw [a1, a2] at k2
      rcases k2 with ⟨b1, b2⟩ | ⟨b1, b2⟩
      · exact Or.inl ⟨b1, Or.inr (by rcases b2 with b2 | b2 <;> exact b2)⟩
      · exact Or.inl ⟨by simpa using b1, Or.inr b2⟩
    · rw [a1, a2] at k2
      rcases k2 with ⟨b1, b2⟩ | ⟨b1, b2⟩
      · exact Or.inr ⟨b1, by rcases b2 with b2 | b2 <;> exact b2⟩
      · exact Or.inr ⟨by simpa using b1, b2⟩

/-- The invariant holds after construction. -/
theorem teardownInv_ctor : TeardownInv SysState.ctor := by
  simp [TeardownInv, SysState.ctor]

/-- An action of the sending thread does not touch the control point of the destructor. -/
theorem step_sender_dtor_frame (w : SocketResult Unit) (s : SysState) :
    (step (.sender w) s).dtorPc = s.dtorPc := by
  obtain ⟨⟨fs, fr, q⟩, sp, rp, dp, ss, rl⟩ := s
  rcases sp with _ | _ | (_ | _ | _ | _) | _ | _ <;> cases w <;> cases fs <;>
    rcases q with _ | ⟨(_ | ⟨b, m⟩), q⟩ <;>
    simp [step, enabled, senderStep, senderBody, GetMessage, popMessageOrWait]

/-- Every event keeps `TeardownInv`. -/
theorem teardownInv_step (e : Event) (s : SysState) (h : TeardownInv s) :
    TeardownInv (step e s) := by
  obtain ⟨⟨fs, fr, q⟩, sp, rp, dp, ss, rl⟩ := s
  obtain ⟨h4, h5⟩ := h
  simp only at h4 h5
  cases e with
  | Send m =>
    rcases sp with _ | _ | (_ | _ | _ | _) | _ | _ <;>
      simp_all [TeardownInv, step, enabled, wake, DuplexConnection.Send, SendPc.holdsMutex]
  | StartSending =>
    cases sp <;> cases dp <;> simp_all [TeardownInv, step, enabled, SendPc.holdsMutex]
  | StartReceiving =>
    cases rp <;> cases dp <;> simp_all [TeardownInv, step, enabled]
  | Stop =>
    simp_all [TeardownInv, step, enabled, DuplexConnection.Stop]
  | spuriousWake =>
    rcases sp with _ | _ | (_ | _ | _ | _) | _ | _ <;>
      simp_all [TeardownInv, step, enabled, wake, SendPc.holdsMutex]
  | sender w =>
    by_cases hd : dp = .notCalled
    · have hf := step_sender_dtor_frame w
        { conn := { m_IsSending := fs, m_IsReceiving := fr, m_Messages := q }, sendPc := sp,
          recvPc := rp, dtorPc := dp, socketSends := ss, recvLog := rl }
      simp only at hf
      unfold TeardownInv
      rw [hf, hd]
      simp
    · obtain ⟨k1, k2, k3⟩ := h4 hd
      subst k1 k2
      rcases sp with _ | _ | (_ | _ | _ | _) | _ | _ <;> cases w <;>
        simp_all [TeardownInv, step, enabled, senderStep, senderBody, GetMessage,
          DuplexConnection.Stop, SendPc.holdsMutex]
  | receiver a b =>
    obtain ⟨k1, k2, k3, k4⟩ := step_receiver_frame a b
      { conn := { m_IsSending := fs, m_IsReceiving := fr, m_Messages := q }, sendPc := sp,
        recvPc := rp, dtorPc := dp, socketSends := ss, recvLog := rl }
    unfold TeardownInv
    rw [k1, k2]
    rcases k4 with k4 | k4 <;> rw [k4] <;> simp_all [DuplexConnection.Stop]
  | destructor =>
    cases dp with
    | notCalled =>
      rcases sp with _ | _ | (_ | _ | _ | _) | _ | _ <;>
        simp [TeardownInv, step, enabled, destructorStep, DuplexConnection.Stop,
          SendPc.holdsMutex]
    | stopped =>
      obtain ⟨k1, k2, k3⟩ := h4 (by simp)
      subst k1 k2
      rcases sp with _ | _ | (_ | _ | _ | _) | _ | _ <;>
        simp_all [TeardownInv, step, enabled, destructorStep, wake, SendPc.holdsMutex]
    | notified =>
      obtain ⟨k1, k2, k3⟩ := h4 (by simp)
      have k4 := h5 (by simp) (by simp)
      subst k1 k2
      rcases sp with _ | _ | (_ | _ | _ | _) | _ | _ <;>
        simp_all [TeardownInv, step, enabled, destructorStep, SendPc.holdsMutex,
          SendPc.joinDone]
    | joinedSending =>
      obtain ⟨k1, k2, k3⟩ := h4 (by simp)
      have k4 := h5 (by simp) (by simp)
      subst k1 k2
      cases rp <;>
        simp_all [TeardownInv, step, enabled, destructorStep, RecvPc.joinDone]
    | destroyed =>
      simp_all [TeardownInv, step, enabled]

/-- Schedule version of `teardownInv_step`. -/
theorem teardownInv_exec (sched : List Event) : TeardownInv (exec sched SysState.ctor) :=
  exec_invariant TeardownInv (fun _ => True)
    (fun e s _ h => teardownInv_step e s h) sched SysState.ctor (fun _ _ => trivial)
    teardownInv_ctor

/-- Once the destructor has begun it stays begun. -/
theorem dtorStarted_step (e : Event) (s : SysState) (h : s.dtorPc ≠ .notCalled) :
    (step e s).dtorPc ≠ .notCalled := by
  cases e with
  | receiver a b => rw [(step_receiver_frame a b s).2.1]; exact h
  | StartReceiving => rw [(step_StartReceiving_frame s).2.1]; exact h
  | destructor =>
    obtain ⟨c, sp, rp, dp, ss, rl⟩ := s
    cases dp <;> simp [step, enabled, destructorStep] at h ⊢ <;> split <;> simp
  | StartSending =>
    obtain ⟨c, sp, rp, dp, ss, rl⟩ := s
    simp only [step]; split <;> exact h
  | Send m =>
    obtain ⟨c, sp, rp, dp, ss, rl⟩ := s
    rcases sp with _ | _ | (_ | _ | _ | _) | _ | _ <;>
      simpa [step, enabled, wake, SendPc.holdsMutex] using h
  | Stop => exact h
  | spuriousWake =>
    obtain ⟨c, sp, rp, dp, ss, rl⟩ := s
    rcases sp with _ | _ | (_ | _ | _ | _) | _ | _ <;>
      simpa [step, enabled, wake] using h
  | sender w => rw [step_sender_dtor_frame w s]; exact h

/-- Schedule version of `dtorStarted_step`. -/
theorem dtorStarted_exec (t : List Event) (s : SysState) (h : s.dtorPc ≠ .notCalled) :
    (exec t s).dtorPc ≠ .notCalled := by
  induction t generalizing s with
  | nil => exact h
  | cons e es ih => exact ih _ (dtorStarted_step e s h)

/-- After the destructor has begun, `StartSending` is not enabled. -/
theorem step_StartSending_of_dtorStarted (s : SysState) (h : s.dtorPc ≠ .notCalled) :
    step .StartSending s = s := by
  obtain ⟨c, sp, rp, dp, ss, rl⟩ := s
  cases dp <;> simp_all [step, enabled]

/-- After the locked `Stop()` of the destructor, along every schedule, nothing is written
except a message that the sending thread had dequeued and was about to write. -/
theorem afterStop_exec (t : List Event) (s : SysState) (hd : s.dtorPc ≠ .notCalled)
    (hflag : s.conn.m_IsSending = false) (hm : s.sendPc.holdsMutex = false) :
    (exec t s).socketSends = s.socketSends ∨
    ∃ m, s.sendPc = .socketSend m ∧ (exec t s).socketSends = s.socketSends ++ [m] := by
  have key : ∀ (t : List Event) (s : SysState), s.dtorPc ≠ .notCalled →
      s.conn.m_IsSending = false →
      ∃ t2 : List Event, (∀ e ∈ t2, e ≠ .StartSending) ∧ exec t s = exec t2 s := by
    intro t
    induction t with
    | nil => intro s _ _; exact ⟨[], by simp, rfl⟩
    | cons e es ih =>
      intro s hd hflag
      by_cases he : e = .StartSending
      · subst he
        obtain ⟨t2, h1, h2⟩ := ih s hd hflag
        refine ⟨t2, h1, ?_⟩
        rw [exec_cons, step_StartSending_of_dtorStarted s hd]
        exact h2
      · obtain ⟨t2, h1, h2⟩ := ih (step e s) (dtorStarted_step e s hd)
          (stopped_step e s he hflag).1
        refine ⟨e :: t2, ?_, ?_⟩
        · intro x hx
          rcases List.mem_cons.mp hx with hx | hx
          · rw [hx]; exact he
          · exact h1 x hx
        · simp only [exec_cons]; exact h2
  obtain ⟨t2, h1, h2⟩ := key t s hd hflag
  rw [h2]
  obtain ⟨-, h3⟩ := stopped_exec t2 s h1 hflag
  obtain ⟨c, sp, rp, dp, ss, rl⟩ := s
  simp only at hm
  rcases sp with _ | _ | (_ | _ | _ | _) | _ | _ <;>
    simp_all [pendingWrite, SendPc.holdsMutex]
  rcases h3 with ⟨h3, -⟩ | ⟨h3, -⟩ <;> simp [h3]

/-- With both flags false and the sending thread neither blocked in `wait` nor inside its
critical section, two actions of the thread end it (or it was never started); the object,
the receiving thread and the destructor are not touched. -/
theorem sender_drain (w1 w2 : SocketResult Unit) (s : SysState)
    (h1 : s.conn.m_IsSending = false) (hr : s.conn.m_IsReceiving = false)
    (h2 : s.sendPc ≠ .getMessage .wait) (h3 : s.sendPc.holdsMutex = false) :
    (exec [.sender w1, .sender w2] s).sendPc.joinDone = true ∧
    (exec [.sender w1, .sender w2] s).conn = s.conn ∧
    (exec [.sender w1, .sender w2] s).recvPc = s.recvPc ∧
    (exec [.sender w1, .sender w2] s).dtorPc = s.dtorPc := by
  obtain ⟨⟨fs, fr, q⟩, sp, rp, dp, ss, rl⟩ := s
  simp only at h1 hr h2 h3
  subst h1 hr
  rcases sp with _ | _ | (_ | _ | _ | _) | _ | _ <;> cases w1 <;>
    simp_all [step, enabled, senderStep, senderBody, GetMessage, SendPc.holdsMutex,
      SendPc.joinDone, DuplexConnection.Stop]

/-- With `m_IsReceiving` false, two actions of the receiving thread end it (or it was never
started); the sending side is not touched. -/
theorem receiver_drain (a1 a2 : SocketResult Bool) (b1 b2 : SocketResult ByteVector)
    (s : SysState) (h1 : s.conn.m_IsReceiving = false) :
    (exec [.receiver a1 b1, .receiver a2 b2] s).recvPc.joinDone = true ∧
    (exec [.receiver a1 b1, .receiver a2 b2] s).sendPc = s.sendPc ∧
    (exec [.receiver a1 b1, .receiver a2 b2] s).socketSends = s.socketSends ∧
    (exec [.receiver a1 b1, .receiver a2 b2] s).dtorPc = s.dtorPc := by
  obtain ⟨⟨fs, fr, q⟩, sp, rp, dp, ss, rl⟩ := s
  simp only at h1
  subst h1
  rcases rp with _ | _ | _ | _ | _ | _ <;> cases b1 <;>
    simp [step, enabled, receiverStep, receiverBody, RecvPc.joinDone, DuplexConnection.Stop]

/-- Both joins of the destructor complete once both threads have finished. -/
theorem destructor_drain (s : SysState) (h1 : s.dtorPc ≠ .notCalled) (h2 : s.dtorPc ≠ .stopped)
    (h3 : s.sendPc.joinDone = true) (h4 : s.recvPc.joinDone = true) :
    (exec [.destructor, .destructor] s).dtorPc = .destroyed ∧
    (exec [.destructor, .destructor] s).socketSends = s.socketSends ∧
    (exec [.destructor, .destructor] s).sendPc = s.sendPc ∧
    (exec [.destructor, .destructor] s).recvPc = s.recvPc := by
  obtain ⟨c, sp, rp, dp, ss, rl⟩ := s
  simp only at h1 h2 h3 h4
  cases dp <;> simp_all [step, enabled, destructorStep]

/-- An action of the receiving thread whose socket calls succeed changes nothing on the
sending side. -/
theorem step_receiver_ok_frame (a : Bool) (b : ByteVector) (s : SysState) :
    (step (.receiver (.ok a) (.ok b)) s).conn = s.conn ∧
    (step (.receiver (.ok a) (.ok b)) s).sendPc = s.sendPc ∧
    (step (.receiver (.ok a) (.ok b)) s).socketSends = s.socketSends := by
  obtain ⟨⟨fs, fr, q⟩, sp, rp, dp, ss, rl⟩ := s
  cases a <;> rcases rp with _ | _ | _ | _ | (_ | ⟨_, _⟩) | _ <;> cases fr <;>
    simp [step, enabled, receiverStep, receiverBody]

/-- The invariant holds after construction, with no message passed to `Send`. -/
theorem fifoInv_ctor : FifoInv [] SysState.ctor := by
  simp [FifoInv, SysState.ctor, DuplexConnection.ctor, inflight]

/-- An enabled event of a run that keeps sending keeps `FifoInv`, with the message it passes
to `Send` added. -/
theorem fifoInv_step (e : Event) (msgs : List ByteVector) (s : SysState)
    (he : e.keepsSending = true) (hen : enabled e s = true) (h : FifoInv msgs s) :
    FifoInv (msgs ++ sentMessages [e]) (step e s) := by
  obtain ⟨⟨fs, fr, q⟩, sp, rp, dp, ss, rl⟩ := s
  obtain ⟨h1, h2, h3, h4, h5⟩ := h
  simp only at h1 h2 h3 h4 h5
  subst h2
  cases e with
  | Stop => simp [Event.keepsSending] at he
  | destructor => simp [Event.keepsSending] at he
  | StartSending =>
    cases sp <;> cases dp <;>
      simp_all [FifoInv, step, enabled, inflight, sentMessages]
  | StartReceiving =>
    cases rp <;> cases dp <;> simp_all [FifoInv, step, enabled, sentMessages]
  | Send m =>
    have hm : m ≠ [] := by simpa [Event.keepsSending] using he
    rcases sp with _ | _ | (_ | _ | _ | _) | _ | _ <;>
      simp_all [FifoInv, step, enabled, wake, DuplexConnection.Send, SendPc.holdsMutex,
        inflight, sentMessages] <;>
      (rintro x (hx | rfl) <;> first | exact h1 x hx | exact hm)
  | spuriousWake =>
    rcases sp with _ | _ | (_ | _ | _ | _) | _ | _ <;>
      simp_all [FifoInv, step, enabled, wake, inflight, sentMessages]
  | sender w =>
    cases w with
    | throwsSocketsException => simp [Event.keepsSending] at he
    | ok u =>
      rcases sp with _ | _ | (_ | _ | _ | _) | _ | _ <;> cases fs <;>
        rcases q with _ | ⟨(_ | ⟨b, m⟩), q⟩ <;>
        simp_all [FifoInv, step, enabled, senderStep, senderBody, GetMessage,
          popMessageOrWait, inflight, sentMessages]
  | receiver a b =>
    rcases a with a | _
    · rcases b with b | _
      · obtain ⟨k1, k2, k3⟩ := step_receiver_ok_frame a b
          { conn := { m_IsSending := fs, m_IsReceiving := fr, m_Messages := q }, sendPc := sp,
            recvPc := rp, dtorPc := dp, socketSends := ss, recvLog := rl }
        unfold FifoInv
        rw [k1, k2, k3]
        simpa [sentMessages] using ⟨h1, h3, h4, h5⟩
      · simp [Event.keepsSending] at he
    · simp [Event.keepsSending] at he

/-- Schedule version of `fifoInv_step`. -/
theorem fifoInv_exec (sched : List Event) (msgs : List ByteVector) (s : SysState)
    (hall : ∀ e ∈ sched, e.keepsSending = true) (hv : Valid sched s = true)
    (h : FifoInv msgs s) : FifoInv (msgs ++ sentMessages sched) (exec sched s) := by
  induction sched generalizing msgs s with
  | nil => simpa [sentMessages] using h
  | cons e es ih =>
    simp only [Valid, Bool.and_eq_true] at hv
    have h1 := fifoInv_step e msgs s (hall e (List.mem_cons_self _ _)) hv.1 h
    have h2 := ih (msgs ++ sentMessages [e]) (step e s)
      (fun x hx => hall x (List.mem_cons_of_mem _ hx)) hv.2 h1
    have h3 : msgs ++ sentMessages [e] ++ sentMessages es = msgs ++ sentMessages (e :: es) := by
      cases e <;> simp [sentMessages]
    rw [h3] at h2
    exact h2

/-- One action of the sending thread with a successful write keeps the invariant and uses
one unit of fuel. -/
theorem fifoInv_sender (msgs : List ByteVector) (s : SysState) (h : FifoInv msgs s)
    (hs : s.sendPc ≠ .notStarted) :
    FifoInv msgs (step (.sender (.ok ())) s) ∧
    (step (.sender (.ok ())) s).sendPc ≠ .notStarted ∧
    senderFuel (step (.sender (.ok ())) s) = senderFuel s - 1 := by
  obtain ⟨⟨fs, fr, q⟩, sp, rp, dp, ss, rl⟩ := s
  obtain ⟨h1, h2, h3, h4, h5⟩ := h
  simp only at h1 h2 h3 h4 h5 hs
  subst h2
  rcases sp with _ | _ | (_ | _ | _ | _) | _ | _ <;> cases fs <;>
    rcases q with _ | ⟨(_ | ⟨b, m⟩), q⟩ <;>
    simp_all [FifoInv, step, enabled, senderStep, senderBody, GetMessage,
      popMessageOrWait, inflight, senderFuel] <;> omega

/-- Iterated `fifoInv_sender`. -/
theorem fifoInv_sender_iter (k : Nat) (msgs : List ByteVector) (s : SysState)
    (h : FifoInv msgs s) (hs : s.sendPc ≠ .notStarted) :
    FifoInv msgs (exec (List.replicate k (.sender (.ok ()))) s) ∧
    (exec (List.replicate k (.sender (.ok ()))) s).sendPc ≠ .notStarted ∧
    senderFuel (exec (List.replicate k (.sender (.ok ()))) s) = senderFuel s - k := by
  induction k generalizing s with
  | zero => exact ⟨h, hs, rfl⟩
  | succ k ih =>
    obtain ⟨a1, a2, a3⟩ := fifoInv_sender msgs s h hs
    obtain ⟨b1, b2, b3⟩ := ih (step (.sender (.ok ())) s) a1 a2
    refine ⟨b1, b2, ?_⟩
    simp only [List.replicate_succ, exec_cons]
    rw [b3, a3]
    omega

/-- The fuel is bounded by the number of messages passed to `Send`. -/
theorem senderFuel_le (msgs : List ByteVector) (s : SysState) (h : FifoInv msgs s) :
    senderFuel s ≤ 3 * msgs.length + 3 := by
  obtain ⟨-, h2, -⟩ := h
  have hl : s.conn.m_Messages.length ≤ msgs.length := by
    rw [← h2]; simp only [List.length_append]; omega
  unfold senderFuel
  split <;> omega

/-- With no fuel left the sending thread is blocked in `wait`, the queue is empty and every
message has been written. -/
theorem fifoInv_quiescent (msgs : List ByteVector) (s : SysState) (h : FifoInv msgs s)
    (hs : s.sendPc ≠ .notStarted) (hf : senderFuel s = 0) :
    s.socketSends = msgs ∧ s.conn.m_Messages = [] ∧ s.sendPc = .getMessage .wait ∧
    s.conn.m_IsSending = true := by
  obtain ⟨⟨fs, fr, q⟩, sp, rp, dp, ss, rl⟩ := s
  obtain ⟨h1, h2, h3, h4, h5⟩ := h
  simp only at h1 h2 h3 h4 h5 hs
  rcases sp with _ | _ | (_ | _ | _ | _) | _ | _ <;>
    simp_all [senderFuel, inflight]

/-- An event of another thread does not touch the log or the control point of the receiving
thread, and it cannot set `m_IsReceiving`; `StartReceiving` acts only on a thread that is
not started. -/
theorem step_other_recv_frame (e : Event) (s : SysState) (h1 : ∀ a b, e ≠ .receiver a b) :
    (step e s).recvLog = s.recvLog ∧
    (((step e s).recvPc = s.recvPc ∧
        ((step e s).conn.m_IsReceiving = s.conn.m_IsReceiving ∨
          (step e s).conn.m_IsReceiving = false)) ∨
      s.recvPc = .notStarted) := by
  obtain ⟨⟨fs, fr, q⟩, sp, rp, dp, ss, rl⟩ := s
  cases e with
  | receiver a b => exact absurd rfl (h1 a b)
  | StartReceiving => cases rp <;> cases dp <;> simp [step, enabled]
  | Stop => simp [step, enabled, DuplexConnection.Stop]
  | destructor =>
    obtain ⟨-, k2, k3, k4, -⟩ := step_destructor_frame
      { conn := { m_IsSending := fs, m_IsReceiving := fr, m_Messages := q }, sendPc := sp,
        recvPc := rp, dtorPc := dp, socketSends := ss, recvLog := rl }
    refine ⟨k3, Or.inl ⟨k2, ?_⟩⟩
    rcases k4 with k4 | k4 <;> rw [k4] <;> simp [DuplexConnection.Stop]
  | StartSending => simp only [step]; split <;> simp
  | Send m =>
    rcases sp with _ | _ | (_ | _ | _ | _) | _ | _ <;>
      simp [step, enabled, wake, DuplexConnection.Send, SendPc.holdsMutex]
  | spuriousWake =>
    rcases sp with _ | _ | (_ | _ | _ | _) | _ | _ <;> simp [step, enabled, wake]
  | sender w =>
    rcases sp with _ | _ | (_ | _ | _ | _) | _ | _ <;> cases w <;> cases fs <;>
      rcases q with _ | ⟨(_ | ⟨b, m⟩), q⟩ <;>
      simp [step, enabled, senderStep, senderBody, GetMessage, popMessageOrWait,
        DuplexConnection.Stop]

/-- Every event keeps `RecvStopped` and the log of the receiving thread. -/
theorem recvStopped_step (e : Event) (s : SysState) (h : RecvStopped s) :
    RecvStopped (step e s) ∧ (step e s).recvLog = s.recvLog := by
  by_cases h1 : ∃ a b, e = .receiver a b
  · obtain ⟨a, b, rfl⟩ := h1
    obtain ⟨⟨fs, fr, q⟩, sp, rp, dp, ss, rl⟩ := s
    obtain ⟨k1, k2⟩ := h
    simp only at k1 k2
    subst k1
    rcases k2 with k2 | k2 | k2 <;> subst k2 <;>
      simp [RecvStopped, step, enabled, receiverStep, receiverBody]
  · obtain ⟨f1, f2⟩ := step_other_recv_frame e s (fun a b hh => h1 ⟨a, b, hh⟩)
    obtain ⟨k1, k2⟩ := h
    refine ⟨?_, f1⟩
    rcases f2 with ⟨f2, f3⟩ | f2
    · refine ⟨?_, by rw [f2]; exact k2⟩
      rcases f3 with f3 | f3
      · exact f3.trans k1
      · exact f3
    · rw [f2] at k2; simp at k2

/-- Schedule version of `recvStopped_step`. -/
theorem recvStopped_exec (t : List Event) (s : SysState) (h : RecvStopped s) :
    RecvStopped (exec t s) ∧ (exec t s).recvLog = s.recvLog := by
  induction t generalizing s with
  | nil => exact ⟨h, rfl⟩
  | cons e es ih =>
    obtain ⟨h1, h2⟩ := recvStopped_step e s h
    obtain ⟨k1, k2⟩ := ih (step e s) h1
    exact ⟨k1, k2.trans h2⟩

/-- A callback invocation is logged only by the action of lines 83-85, on a message that was
read, in a state in which `m_IsReceiving` is true. -/
theorem callback_logged (e : Event) (s : SysState) (m : ByteVector)
    (h : (step e s).recvLog = s.recvLog ++ [.callback m]) :
    s.conn.m_IsReceiving = true ∧ s.recvPc = .afterReceive m ∧ m ≠ [] := by
  by_cases h1 : ∃ a b, e = .receiver a b
  · obtain ⟨a, b, rfl⟩ := h1
    obtain ⟨⟨fs, fr, q⟩, sp, rp, dp, ss, rl⟩ := s
    revert h
    rcases a with (_ | _) | _ <;> cases b <;>
      rcases rp with _ | _ | _ | _ | (_ | ⟨_, _⟩) | _ <;> cases fr <;>
      simp [step, enabled, receiverStep, receiverBody]
    all_goals (intro h; subst h; simp)
  · obtain ⟨f1, -⟩ := step_other_recv_frame e s (fun a b hh => h1 ⟨a, b, hh⟩)
    rw [f1] at h
    simp at h

/-- C1 (FIFO delivery).  Take any valid schedule in which `m_IsSending` stays true, no socket
call fails, only non-empty messages are passed to `Send`, and `StartSending` has been
called.  At every point the socket writes are an initial segment of the messages passed to
`Send`; and once the sending thread has been given enough further actions (three per
message and three more suffice), the socket writes are exactly the messages passed to
`Send`, in that order, the queue is empty and the thread is blocked in `wait`. -/
theorem C1_fifo_delivery (sched : List Event)
    (hall : ∀ e ∈ sched, e.keepsSending = true)
    (hvalid : Valid sched SysState.ctor = true)
    (hstarted : (exec sched SysState.ctor).sendPc ≠ .notStarted)
    (k : Nat) (hk : 3 * (sentMessages sched).length + 3 ≤ k) :
    (exec sched SysState.ctor).socketSends <+: sentMessages sched ∧
    (exec (sched ++ List.replicate k (.sender (.ok ()))) SysState.ctor).socketSends
      = sentMessages sched ∧
    (exec (sched ++ List.replicate k (.sender (.ok ()))) SysState.ctor).conn.m_Messages = [] ∧
    (exec (sched ++ List.replicate k (.sender (.ok ()))) SysState.ctor).sendPc
      = .getMessage .wait ∧
    (exec (sched ++ List.replicate k (.sender (.ok ()))) SysState.ctor).conn.m_IsSending
      = true := by
  have h0 := fifoInv_exec sched [] SysState.ctor hall hvalid fifoInv_ctor
  simp only [List.nil_append] at h0
  obtain ⟨a1, a2, a3⟩ := fifoInv_sender_iter k _ _ h0 hstarted
  have hle := senderFuel_le _ _ h0
  have hz : senderFuel (exec (List.replicate k (.sender (.ok ()))) (exec sched SysState.ctor))
      = 0 := by rw [a3]; omega
  refine ⟨?_, ?_⟩
  · obtain ⟨-, h2, -⟩ := h0
    exact ⟨inflight (exec sched SysState.ctor).sendPc ++ (exec sched SysState.ctor).conn.m_Messages,
      by rw [← List.append_assoc]; exact h2⟩
  · rw [exec_append]
    exact fifoInv_quiescent _ _ a1 a2 hz

/-- Witness for C1: two messages, the second passed to `Send` while the first is being
written. -/
theorem C1_fifo_delivery_witness :
    (∀ e ∈ [Event.Send [1], .StartSending, .sender (.ok ()), .sender (.ok ()), .Send [2, 3]],
      e.keepsSending = true) ∧
    Valid [Event.Send [1], .StartSending, .sender (.ok ()), .sender (.ok ()), .Send [2, 3]]
      SysState.ctor = true ∧
    (exec ([Event.Send [1], .StartSending, .sender (.ok ()), .sender (.ok ()), .Send [2, 3]]
        ++ List.replicate 9 (.sender (.ok ()))) SysState.ctor).socketSends = [[1], [2, 3]] ∧
    (exec ([Event.Send [1], .StartSending, .sender (.ok ()), .sender (.ok ()), .Send [2, 3]]
        ++ List.replicate 9 (.sender (.ok ()))) SysState.ctor).sendPc = .getMessage .wait :=
  ⟨by decide, by decide,
    (C1_fifo_delivery
      [Event.Send [1], .StartSending, .sender (.ok ()), .sender (.ok ()), .Send [2, 3]]
      (by decide) (by decide) (by decide) 9 (by decide)).2.1,
    (C1_fifo_delivery
      [Event.Send [1], .StartSending, .sender (.ok ()), .sender (.ok ()), .Send [2, 3]]
      (by decide) (by decide) (by decide) 9 (by decide)).2.2.2.1⟩

/-- C2 (fault isolation).  From every state: when the write of line 48 throws
`SocketsException`, the exception is raised inside the `try` block and the sending thread
ends normally with both flags false; when the probe of line 74 (called because
`m_IsReceiving` is true) or the read of line 82 throws, the receiving thread ends normally
with both flags false.  Nothing else changes except the log entry of the failed call. -/
theorem C2_fault_isolation (s : SysState) (message : ByteVector) (hasData : SocketResult Bool)
    (read : SocketResult ByteVector) :
    senderBody .throwsSocketsException { s with sendPc := .socketSend message }
      = .SocketsException { s with sendPc := .socketSend message,
                                   socketSends := s.socketSends ++ [message] } ∧
    step (.sender .throwsSocketsException) { s with sendPc := .socketSend message }
      = { s with conn := { s.conn with m_IsSending := false, m_IsReceiving := false },
                 sendPc := .exited, socketSends := s.socketSends ++ [message] } ∧
    step (.receiver .throwsSocketsException read)
        { s with conn := { s.conn with m_IsReceiving := true }, recvPc := .probe }
      = { s with conn := { s.conn with m_IsSending := false, m_IsReceiving := false },
                 recvPc := .exited,
                 recvLog := s.recvLog ++ [.HasReceivedData .throwsSocketsException] } ∧
    step (.receiver hasData .throwsSocketsException) { s with recvPc := .receive }
      = { s with conn := { s.conn with m_IsSending := false, m_IsReceiving := false },
                 recvPc := .exited,
                 recvLog := s.recvLog ++ [.Receive .throwsSocketsException] } := by
  refine ⟨rfl, ?_, ?_, ?_⟩ <;>
    simp [step, enabled, senderStep, senderBody, receiverStep, receiverBody,
      DuplexConnection.Stop]

/-- C3 (Stop is total and idempotent).  `Stop` is a total function; it leaves both flags
false, so `IsSending` returns false, it leaves the queue unchanged, and applying it twice
gives the same object as applying it once.  In the running system the `Stop` event is
enabled in every state, touches nothing but the flags, and is idempotent. -/
theorem C3_stop_total_idempotent (c : DuplexConnection) (s : SysState) :
    c.Stop.m_IsSending = false ∧ c.Stop.m_IsReceiving = false ∧ c.Stop.IsSending = false ∧
    c.Stop.m_Messages = c.m_Messages ∧ c.Stop.Stop = c.Stop ∧
    enabled .Stop s = true ∧ step .Stop s = { s with conn := s.conn.Stop } ∧
    exec [.Stop, .Stop] s = exec [.Stop] s :=
  ⟨rfl, rfl, rfl, rfl, rfl, rfl, rfl, rfl⟩

/-- C4 (clean teardown without missed wakeup).  Take any schedule `sched` of all threads and
callers (messages may have been passed to `Send` and written) that ends after the
destructor has run its locked `Stop()`, and any further schedule `post` that ends after
its `notify_all()`.  In the state reached: the sending thread is not blocked in `wait`; it
is not started, at its locked check, woken, finishing a write or has returned;
`m_IsSending` is false, so that `GetMessage` returns the empty sentinel on wake.  Since
the locked `Stop()` nothing was written to the socket except, if the thread was in the
middle of a write at that moment, the message of that write; so a thread that was blocked
in `wait` or at its check returns without writing.  After two more actions of the sending
thread, two of the receiving thread and two of the destructor, both threads have
finished, both joins are done, and still nothing else was written. -/
theorem C4_clean_teardown (sched post : List Event)
    (hstop : (exec sched SysState.ctor).dtorPc ≠ .notCalled)
    (hnotify : (exec (sched ++ post) SysState.ctor).dtorPc ≠ .stopped)
    (w1 w2 : SocketResult Unit) (a1 a2 : SocketResult Bool) (b1 b2 : SocketResult ByteVector) :
    (exec (sched ++ post) SysState.ctor).sendPc ≠ .getMessage .wait ∧
    ((exec (sched ++ post) SysState.ctor).sendPc = .notStarted ∨
      (exec (sched ++ post) SysState.ctor).sendPc = .loopTop ∨
      (exec (sched ++ post) SysState.ctor).sendPc = .getMessage .woken ∨
      (∃ m, (exec (sched ++ post) SysState.ctor).sendPc = .socketSend m) ∨
      (exec (sched ++ post) SysState.ctor).sendPc = .exited) ∧
    (exec (sched ++ post) SysState.ctor).conn.m_IsSending = false ∧
    GetMessage .woken (exec (sched ++ post) SysState.ctor).conn
      = .returned [] (exec (sched ++ post) SysState.ctor).conn ∧
    ((exec (sched ++ post) SysState.ctor).socketSends = (exec sched SysState.ctor).socketSends ∨
      ∃ m, (exec sched SysState.ctor).sendPc = .socketSend m ∧
        (exec (sched ++ post) SysState.ctor).socketSends
          = (exec sched SysState.ctor).socketSends ++ [m]) ∧
    (exec (sched ++ post ++ [.sender w1, .sender w2, .receiver a1 b1, .receiver a2 b2,
      .destructor, .destructor]) SysState.ctor).sendPc.joinDone = true ∧
    (exec (sched ++ post ++ [.sender w1, .sender w2, .receiver a1 b1, .receiver a2 b2,
      .destructor, .destructor]) SysState.ctor).recvPc.joinDone = true ∧
    (exec (sched ++ post ++ [.sender w1, .sender w2, .receiver a1 b1, .receiver a2 b2,
      .destructor, .destructor]) SysState.ctor).dtorPc = .destroyed ∧
    ((exec (sched ++ post ++ [.sender w1, .sender w2, .receiver a1 b1, .receiver a2 b2,
        .destructor, .destructor]) SysState.ctor).socketSends
        = (exec sched SysState.ctor).socketSends ∨
      ∃ m, (exec sched SysState.ctor).sendPc = .socketSend m ∧
        (exec (sched ++ post ++ [.sender w1, .sender w2, .receiver a1 b1, .receiver a2 b2,
          .destructor, .destructor]) SysState.ctor).socketSends
          = (exec sched SysState.ctor).socketSends ++ [m]) := by
  obtain ⟨p1, -⟩ := teardownInv_exec sched
  obtain ⟨pf, -, pm⟩ := p1 hstop
  have hstop2 : (exec (sched ++ post) SysState.ctor).dtorPc ≠ .notCalled := by
    rw [exec_append]; exact dtorStarted_exec post _ hstop
  obtain ⟨i4, i5⟩ := teardownInv_exec (sched ++ post)
  obtain ⟨i6, i7, i8⟩ := i4 hstop2
  have i9 := i5 hstop2 hnotify
  obtain ⟨d1, d3, d4, d5⟩ := sender_drain w1 w2 _ i6 i7 i9 i8
  have r0 : (exec [.sender w1, .sender w2]
      (exec (sched ++ post) SysState.ctor)).conn.m_IsReceiving = false := by
    rw [d3]; exact i7
  obtain ⟨r1, r2, -, r4⟩ := receiver_drain a1 a2 b1 b2 _ r0
  obtain ⟨j1, -, j3, j4⟩ := destructor_drain
    (exec [.receiver a1 b1, .receiver a2 b2] (exec [.sender w1, .sender w2]
      (exec (sched ++ post) SysState.ctor)))
    (by rw [r4, d5]; exact hstop2) (by rw [r4, d5]; exact hnotify)
    (by rw [r2]; exact d1) r1
  have hcat : exec (sched ++ post ++ [.sender w1, .sender w2, .receiver a1 b1,
      .receiver a2 b2, .destructor, .destructor]) SysState.ctor
      = exec [.destructor, .destructor] (exec [.receiver a1 b1, .receiver a2 b2]
          (exec [.sender w1, .sender w2] (exec (sched ++ post) SysState.ctor))) := by
    rw [exec_append]; rfl
  have hw1 := afterStop_exec post _ hstop pf pm
  rw [← exec_append] at hw1
  have hw2 := afterStop_exec (post ++ [.sender w1, .sender w2, .receiver a1 b1,
      .receiver a2 b2, .destructor, .destructor]) _ hstop pf pm
  rw [← exec_append, ← List.append_assoc] at hw2
  refine ⟨i9, ?_, i6, ?_, hw1, ?_, ?_, ?_, hw2⟩
  · revert i9 i8
    generalize (exec (sched ++ post) SysState.ctor).sendPc = sp
    intro i8 i9
    rcases sp with _ | _ | (_ | _ | _ | _) | _ | _ <;>
      simp_all [SendPc.holdsMutex]
  · simp [GetMessage, i6]
  · rw [hcat, j3, r2]; exact d1
  · rw [hcat, j4]; exact r1
  · rw [hcat]; exact j1

/-- Witness for C4: `[1]` has been sent and written, and the sending thread is blocked in
`wait` on the drained queue when the destructor stops and notifies. -/
theorem C4_clean_teardown_witness :
    (exec [Event.StartSending, .Send [1], .sender (.ok ()), .sender (.ok ()),
        .sender (.ok ()), .sender (.ok ()), .sender (.ok ()), .destructor]
      SysState.ctor).sendPc = .getMessage .wait ∧
    (exec [Event.StartSending, .Send [1], .sender (.ok ()), .sender (.ok ()),
        .sender (.ok ()), .sender (.ok ()), .sender (.ok ()), .destructor]
      SysState.ctor).socketSends = [[1]] ∧
    (exec ([Event.StartSending, .Send [1], .sender (.ok ()), .sender (.ok ()),
        .sender (.ok ()), .sender (.ok ()), .sender (.ok ()), .destructor] ++ [.destructor])
      SysState.ctor).sendPc ≠ .getMessage .wait ∧
    (exec ([Event.StartSending, .Send [1], .sender (.ok ()), .sender (.ok ()),
        .sender (.ok ()), .sender (.ok ()), .sender (.ok ()), .destructor] ++ [.destructor]
        ++ [.sender (.ok ()), .sender (.ok ()), .receiver (.ok false) (.ok []),
          .receiver (.ok false) (.ok []), .destructor, .destructor])
      SysState.ctor).dtorPc = .destroyed ∧
    (exec ([Event.StartSending, .Send [1], .sender (.ok ()), .sender (.ok ()),
        .sender (.ok ()), .sender (.ok ()), .sender (.ok ()), .destructor] ++ [.destructor]
        ++ [.sender (.ok ()), .sender (.ok ()), .receiver (.ok false) (.ok []),
          .receiver (.ok false) (.ok []), .destructor, .destructor])
      SysState.ctor).socketSends = [[1]] :=
  ⟨by decide, by decide,
    (C4_clean_teardown [Event.StartSending, .Send [1], .sender (.ok ()), .sender (.ok ()),
      .sender (.ok ()), .sender (.ok ()), .sender (.ok ()), .destructor] [.destructor]
      (by decide) (by decide)
      (.ok ()) (.ok ()) (.ok false) (.ok false) (.ok []) (.ok [])).1,
    (C4_clean_teardown [Event.StartSending, .Send [1], .sender (.ok ()), .sender (.ok ()),
      .sender (.ok ()), .sender (.ok ()), .sender (.ok ()), .destructor] [.destructor]
      (by decide) (by decide)
      (.ok ()) (.ok ()) (.ok false) (.ok false) (.ok []) (.ok [])).2.2.2.2.2.2.2.1,
    by decide⟩

/-- C6, counterexample to the claim as stated.  `Send([])`, `Send([1])`, `StartSending`; the
sending thread passes its check at line 42, pops the zero-length message at lines 125-127
and leaves the loop at line 46.  It has returned, `[1]` is still queued and was never
written, and `m_IsSending` is true. -/
theorem C6_counterexample :
    Valid [Event.Send [], .Send [1], .StartSending, .sender (.ok ()), .sender (.ok ())]
      SysState.ctor = true ∧
    (exec [Event.Send [], .Send [1], .StartSending, .sender (.ok ()), .sender (.ok ())]
      SysState.ctor).sendPc = .exited ∧
    (exec [Event.Send [], .Send [1], .StartSending, .sender (.ok ()), .sender (.ok ())]
      SysState.ctor).conn.m_Messages = [[1]] ∧
    (exec [Event.Send [], .Send [1], .StartSending, .sender (.ok ()), .sender (.ok ())]
      SysState.ctor).socketSends = [] ∧
    (exec [Event.Send [], .Send [1], .StartSending, .sender (.ok ()), .sender (.ok ())]
      SysState.ctor).conn.m_IsSending = true := by
  decide

/-- C6 as amended (no message is dropped except on stop).  For every schedule in which no
zero-length message is passed to `Send`: if the sending thread has returned while a message
is still queued, then `m_IsSending` is false. -/
theorem C6_no_drop_except_on_stop (sched : List Event)
    (hne : ∀ e ∈ sched, e.sendsEmpty = false)
    (hexit : (exec sched SysState.ctor).sendPc = .exited)
    (_hqueued : (exec sched SysState.ctor).conn.m_Messages ≠ []) :
    (exec sched SysState.ctor).conn.m_IsSending = false := by
  have h := exec_invariant NoSilentExit (fun e => e.sendsEmpty = false)
    (fun e s he h => noSilentExit_step e s he h) sched SysState.ctor hne
    (by simp [NoSilentExit, SysState.ctor, DuplexConnection.ctor])
  exact h.2 hexit

/-- Witness for C6 as amended: `[1]` and `[2]` are queued, `Stop()` is called while `[1]` is
being written, and the sending thread returns at its next check with `[2]` still queued. -/
theorem C6_no_drop_except_on_stop_witness :
    (∀ e ∈ [Event.StartSending, .Send [1], .Send [2], .sender (.ok ()), .sender (.ok ()),
        .Stop, .sender (.ok ()), .sender (.ok ())], e.sendsEmpty = false) ∧
    (exec [Event.StartSending, .Send [1], .Send [2], .sender (.ok ()), .sender (.ok ()),
        .Stop, .sender (.ok ()), .sender (.ok ())] SysState.ctor).sendPc = .exited ∧
    (exec [Event.StartSending, .Send [1], .Send [2], .sender (.ok ()), .sender (.ok ()),
        .Stop, .sender (.ok ()), .sender (.ok ())] SysState.ctor).conn.m_Messages ≠ [] ∧
    (exec [Event.StartSending, .Send [1], .Send [2], .sender (.ok ()), .sender (.ok ()),
        .Stop, .sender (.ok ()), .sender (.ok ())] SysState.ctor).conn.m_IsSending = false :=
  ⟨by decide, by decide, by decide,
    C6_no_drop_except_on_stop [Event.StartSending, .Send [1], .Send [2], .sender (.ok ()),
      .sender (.ok ()), .Stop, .sender (.ok ()), .sender (.ok ())]
      (by decide) (by decide) (by decide)⟩

/-- C7 (dequeue case analysis).  `GetMessage` entered with a non-empty queue returns the head
and removes exactly it, without waiting, whatever the flags; entered with an empty queue
it waits.  On a wake: with `m_IsSending` false it returns the empty sentinel and leaves the
object, queue included, unchanged; with `m_IsSending` true it goes on to test the queue,
returns and removes the head if there is one, and otherwise goes back to waiting with the
object unchanged.  In the running system a spurious wake with an empty queue and
`m_IsSending` true brings the sending thread back to `wait` with nothing changed: it has
not returned and has written nothing. -/
theorem C7_getMessage_case_analysis (c : DuplexConnection) (m : ByteVector)
    (rest : List ByteVector) (s : SysState) (w1 w2 : SocketResult Unit) :
    GetMessage .entry { c with m_Messages := m :: rest }
      = .returned m { c with m_Messages := rest } ∧
    GetMessage .entry { c with m_Messages := [] } = .goto .wait { c with m_Messages := [] } ∧
    GetMessage .woken { c with m_IsSending := false }
      = .returned [] { c with m_IsSending := false } ∧
    GetMessage .woken { c with m_IsSending := true }
      = .goto .recheck { c with m_IsSending := true } ∧
    GetMessage .recheck { c with m_Messages := m :: rest }
      = .returned m { c with m_Messages := rest } ∧
    GetMessage .recheck { c with m_Messages := [] }
      = .goto .wait { c with m_Messages := [] } ∧
    exec [.spuriousWake, .sender w1, .sender w2]
        { s with conn := { s.conn with m_IsSending := true, m_Messages := [] },
                 sendPc := .getMessage .wait }
      = { s with conn := { s.conn with m_IsSending := true, m_Messages := [] },
                 sendPc := .getMessage .wait } := by
  refine ⟨rfl, rfl, rfl, rfl, rfl, rfl, ?_⟩
  simp [step, enabled, wake, senderStep, senderBody, GetMessage, popMessageOrWait]

/-- C8, counterexample to the claim as stated.  `[1]` is queued and the sending thread has
passed its check at line 42 when `Stop()` is called.  In that state `m_IsSending` is false
and `[1]` is still in the queue, not dequeued; the thread then pops it at line 127 and
writes it at line 48.  The write that follows the clearing of the flag is not of a message
dequeued before the flag was cleared. -/
theorem C8_counterexample :
    Valid [Event.StartSending, .Send [1], .sender (.ok ()), .Stop, .sender (.ok ()),
      .sender (.ok ()), .sender (.ok ())] SysState.ctor = true ∧
    (exec [Event.StartSending, .Send [1], .sender (.ok ()), .Stop]
      SysState.ctor).conn.m_IsSending = false ∧
    (exec [Event.StartSending, .Send [1], .sender (.ok ()), .Stop]
      SysState.ctor).sendPc = .getMessage .entry ∧
    (exec [Event.StartSending, .Send [1], .sender (.ok ()), .Stop]
      SysState.ctor).conn.m_Messages = [[1]] ∧
    (exec [Event.StartSending, .Send [1], .sender (.ok ()), .Stop]
      SysState.ctor).socketSends = [] ∧
    (exec [Event.StartSending, .Send [1], .sender (.ok ()), .Stop, .sender (.ok ()),
      .sender (.ok ()), .sender (.ok ())] SysState.ctor).socketSends = [[1]] ∧
    (exec [Event.StartSending, .Send [1], .sender (.ok ()), .Stop, .sender (.ok ()),
      .sender (.ok ()), .sender (.ok ())] SysState.ctor).sendPc = .exited := by
  decide

/-- C8 as amended (Stop bounds further sending).  From any state in which `m_IsSending` is
false, along any schedule in which `StartSending` is not called, the sending thread makes
at most one further socket write, and only of its pending write: the message it has
already dequeued, or the head of the queue if it is already past its check of the flag.
If the flag is false when the thread checks it at line 42, the thread returns with no
dequeue and no write; nothing is written afterwards and the queued messages stay queued. -/
theorem C8_stop_bounds_sending (s : SysState) (t t2 : List Event) (w : SocketResult Unit)
    (hflag : s.conn.m_IsSending = false)
    (ht : ∀ e ∈ t, e ≠ .StartSending) :
    ((exec t s).socketSends = s.socketSends ∨
      ∃ m, pendingWrite s = some m ∧ (exec t s).socketSends = s.socketSends ++ [m]) ∧
    (exec t s).conn.m_IsSending = false ∧
    step (.sender w) { s with sendPc := .loopTop } = { s with sendPc := .exited } ∧
    (exec t2 { s with sendPc := .exited }).socketSends = s.socketSends ∧
    s.conn.m_Messages <+: (exec t2 { s with sendPc := .exited }).conn.m_Messages := by
  obtain ⟨h1, h2⟩ := stopped_exec t s ht hflag
  refine ⟨?_, h1, ?_⟩
  · rcases h2 with ⟨a, -⟩ | ⟨a, -⟩
    · exact Or.inl a
    · cases hp : pendingWrite s with
      | none => left; simpa [hp] using a
      | some m => right; exact ⟨m, rfl, by simpa [hp] using a⟩
  · obtain ⟨-, k2, more, k3⟩ := exited_exec t2 { s with sendPc := .exited } rfl
    refine ⟨?_, k2, more, k3.symm⟩
    obtain ⟨⟨fs, fr, q⟩, sp, rp, dp, ss, rl⟩ := s
    simp only at hflag
    subst hflag
    simp [step, enabled, senderStep, senderBody]

/-- Witness for C8 as amended: `Stop()` is called while `[1]` is being written and `[2]` is
queued; `[1]` is written, `[2]` is not. -/
theorem C8_stop_bounds_sending_witness :
    (exec [Event.StartSending, .Send [1], .Send [2], .sender (.ok ()), .sender (.ok ()), .Stop]
      SysState.ctor).conn.m_IsSending = false ∧
    (∀ e ∈ [Event.sender (.ok ()), .sender (.ok ()), .Send [3], .sender (.ok ())],
      e ≠ .StartSending) ∧
    pendingWrite (exec [Event.StartSending, .Send [1], .Send [2], .sender (.ok ()),
      .sender (.ok ()), .Stop] SysState.ctor) = some [1] ∧
    (exec [Event.sender (.ok ()), .sender (.ok ()), .Send [3], .sender (.ok ())]
      (exec [Event.StartSending, .Send [1], .Send [2], .sender (.ok ()), .sender (.ok ()),
        .Stop] SysState.ctor)).socketSends = [[1]] ∧
    (exec [Event.sender (.ok ()), .sender (.ok ()), .Send [3], .sender (.ok ())]
      (exec [Event.StartSending, .Send [1], .Send [2], .sender (.ok ()), .sender (.ok ()),
        .Stop] SysState.ctor)).conn.m_IsSending = false :=
  ⟨by decide, by decide, by decide, by decide,
    (C8_stop_bounds_sending
      (exec [Event.StartSending, .Send [1], .Send [2], .sender (.ok ()), .sender (.ok ()),
        .Stop] SysState.ctor)
      [Event.sender (.ok ()), .sender (.ok ()), .Send [3], .sender (.ok ())] []
      (.ok ()) (by decide) (by decide)).2.1⟩

/-- C9 (Stop bounds further receiving).  If `m_IsReceiving` is false when an iteration begins
(line 74), the receiving thread returns after two actions without calling
`HasReceivedData()`, `Receive()` or the callback, and along every schedule from that state
its log stays as it is.  If `m_IsReceiving` is false at line 83, right after a read
returned `message`, the thread returns and the callback is not invoked.  And whenever an
event appends a callback invocation to the log, it does so in a state in which
`m_IsReceiving` is true, at lines 83-85, with the non-empty message just read. -/
theorem C9_stop_bounds_receiving (s : SysState) (t : List Event)
    (a1 a2 : SocketResult Bool) (b1 b2 : SocketResult ByteVector) (message : ByteVector) :
    exec [.receiver a1 b1, .receiver a2 b2]
        { s with conn := { s.conn with m_IsReceiving := false }, recvPc := .probe }
      = { s with conn := { s.conn with m_IsReceiving := false }, recvPc := .exited } ∧
    (exec t { s with conn := { s.conn with m_IsReceiving := false },
                     recvPc := .probe }).recvLog = s.recvLog ∧
    step (.receiver a1 b1)
        { s with conn := { s.conn with m_IsReceiving := false },
                 recvPc := .afterReceive message }
      = { s with conn := { s.conn with m_IsReceiving := false }, recvPc := .exited } ∧
    (∀ (e : Event) (m : ByteVector), (step e s).recvLog = s.recvLog ++ [.callback m] →
      s.conn.m_IsReceiving = true ∧ s.recvPc = .afterReceive m ∧ m ≠ []) := by
  refine ⟨?_, ?_, ?_, ?_⟩
  · simp [step, enabled, receiverStep, receiverBody]
  · exact (recvStopped_exec t
      { s with conn := { s.conn with m_IsReceiving := false }, recvPc := .probe }
      ⟨rfl, Or.inl rfl⟩).2
  · simp [step, enabled, receiverStep, receiverBody]
  · intro e m h
    exact callback_logged e s m h

/-- Witness for C9: the callback is invoked with `[5]` in a state in which `m_IsReceiving` is
true. -/
theorem C9_stop_bounds_receiving_witness :
    (step (.receiver (.ok true) (.ok []))
      (exec [Event.StartReceiving, .receiver (.ok true) (.ok []),
        .receiver (.ok true) (.ok []), .receiver (.ok true) (.ok [5])] SysState.ctor)).recvLog
      = (exec [Event.StartReceiving, .receiver (.ok true) (.ok []),
        .receiver (.ok true) (.ok []), .receiver (.ok true) (.ok [5])] SysState.ctor).recvLog
        ++ [.callback [5]] ∧
    (exec [Event.StartReceiving, .receiver (.ok true) (.ok []),
        .receiver (.ok true) (.ok []), .receiver (.ok true) (.ok [5])]
      SysState.ctor).conn.m_IsReceiving = true :=
  ⟨by decide,
    ((C9_stop_bounds_receiving
      (exec [Event.StartReceiving, .receiver (.ok true) (.ok []),
        .receiver (.ok true) (.ok []), .receiver (.ok true) (.ok [5])] SysState.ctor)
      [] (.ok true) (.ok true) (.ok []) (.ok []) []).2.2.2
      (.receiver (.ok true) (.ok [])) [5] (by decide)).1⟩

/-- C10 (a zero-length message acts as the stop sentinel).  `Send` appends a zero-length
message like any other, and the `Send` event is enabled for it exactly when it is for any
other message.  When the sending thread, with `m_IsSending` true, dequeues a zero-length
message (at line 127 or line 137), it removes it and returns without writing; the flags
are unchanged, so `IsSending` still returns true.  After the thread has returned, along
every schedule nothing is written any more and the messages that were queued behind stay
in the queue. -/
theorem C10_zero_length_is_sentinel (c : DuplexConnection) (s : SysState) (message : ByteVector)
    (rest : List ByteVector) (w : SocketResult Unit) (t : List Event) :
    c.Send [] = { c with m_Messages := c.m_Messages ++ [[]] } ∧
    enabled (.Send []) s = enabled (.Send message) s ∧
    step (.sender w)
        { s with conn := { s.conn with m_IsSending := true, m_Messages := [] :: rest },
                 sendPc := .getMessage .entry }
      = { s with conn := { s.conn with m_IsSending := true, m_Messages := rest },
                 sendPc := .exited } ∧
    step (.sender w)
        { s with conn := { s.conn with m_IsSending := true, m_Messages := [] :: rest },
                 sendPc := .getMessage .recheck }
      = { s with conn := { s.conn with m_IsSending := true, m_Messages := rest },
                 sendPc := .exited } ∧
    ({ s.conn with m_IsSending := true, m_Messages := rest } : DuplexConnection).IsSending
      = true ∧
    (exec t { s with conn := { s.conn with m_IsSending := true, m_Messages := rest },
                     sendPc := .exited }).socketSends = s.socketSends ∧
    (exec t { s with conn := { s.conn with m_IsSending := true, m_Messages := rest },
                     sendPc := .exited }).sendPc = .exited ∧
    rest <+: (exec t { s with conn := { s.conn with m_IsSending := true, m_Messages := rest },
                              sendPc := .exited }).conn.m_Messages := by
  obtain ⟨k1, k2, more, k3⟩ := exited_exec t
    { s with conn := { s.conn with m_IsSending := true, m_Messages := rest },
             sendPc := .exited } rfl
  refine ⟨rfl, rfl, ?_, ?_, rfl, k2, k1, more, k3.symm⟩ <;>
    simp [step, enabled, senderStep, senderBody, GetMessage, popMessageOrWait]

end FSecure
